import Mathlib

/-!
Verification of the lottery image-processing service (`src/public/admin.js`,
server portion).  The server accepts an uploaded image, asks an external
generative model for the raw text and a structured JSON answer, post-processes
that answer (12-digit UTR heuristics, amount sanity check), and persists a
Transaction, a Log and a per-user request counter in a document store.

The shallow embedding below translates the server's pure post-processing
logic and its request handlers into executable Lean definitions.  External
collaborators (the generative model, the mail relay) are modelled as oracle
inputs; the document store is a record of lists; JavaScript numbers are
idealized as exact rationals (a `JsNum` is NaN, a signed infinity, or a
finite rational), which is faithful for the short decimal literals the
claims are about.
-/

namespace LotterySpec

/-! ## JavaScript string primitives -/

/-- JS word character for `\b` in an ASCII regex: `[A-Za-z0-9_]`. -/
def jsIsWordChar (c : Char) : Bool := c.isDigit || c.isAlpha || c == '_'

/-- JS whitespace recognized by `String.prototype.trim` / `parseFloat`
(ASCII subset: space, tab, LF, CR, VT, FF). -/
def jsIsSpace (c : Char) : Bool :=
  c == ' ' || c == '\t' || c == '\n' || c == '\r' || c == '\x0b' || c == '\x0c'

/-- `s.trim()`. -/
def jsTrim (s : String) : String :=
  String.mk (((s.data.dropWhile jsIsSpace).reverse.dropWhile jsIsSpace).reverse)

/-- `s.toLowerCase()` (ASCII). -/
def jsToLower (s : String) : String := String.mk (s.data.map Char.toLower)

/-- `s.replace(/,/g, '')`. -/
def removeCommas (s : String) : String := String.mk (s.data.filter (fun c => c ≠ ','))

/-- `s.startsWith('4')`. -/
def startsWith4 (s : String) : Bool := s.data.head? = some '4'

/-- JS falsiness of an optional string field: absent or the empty string. -/
def jsFalsyStr : Option String → Bool
  | none => true
  | some s => s = ""

/-- `field || 'N/A'`: the default applied when building a Log's processingData. -/
def jsOrNA : Option String → String
  | none => "N/A"
  | some s => if s = "" then "N/A" else s

/-! ## The `\b\d{12}\b` global scan (admin.js line 846-847)

`rawText.match(/\b\d{12}\b/g)` returns, left to right, every maximal digit
run of length exactly 12 whose neighbouring characters (when present) are
not word characters.  No match can start inside a digit run (the preceding
digit breaks `\b`), so scanning whole runs is faithful to the regex. -/

/-- Scanner state: `ok` says the character before the current digit run was
absent or a non-word character; `run` is the current digit run, reversed. -/
def utrScanAux : Bool → List Char → List Char → List String
  | ok, run, [] => if run.length = 12 && ok then [String.mk run.reverse] else []
  | ok, run, c :: rest =>
    if c.isDigit then utrScanAux ok (c :: run) rest
    else
      let tail := utrScanAux (!(jsIsWordChar c)) [] rest
      if run.length = 12 && ok && !(jsIsWordChar c) then String.mk run.reverse :: tail
      else tail

/-- `rawText.match(/\b\d{12}\b/g) || []` (admin.js lines 846-847). -/
def utrMatches (s : String) : List String := utrScanAux true [] s.data

/-! ## JavaScript numbers: `parseFloat` and `toFixed(2)`

Values are idealized as exact rationals; NaN and the signed infinities are
explicit constructors.  `parseFloat` parses the longest valid numeric prefix
(optional sign, `Infinity`, decimal digits with optional fraction and
exponent) after skipping leading whitespace, returning NaN when no digits
are found. -/

inductive JsNum
  | nan
  | inf (neg : Bool)
  | fin (q : ℚ)
deriving DecidableEq, Repr, Inhabited

def digitsToNat (l : List Char) : Nat :=
  l.foldl (fun a c => a * 10 + (c.toNat - '0'.toNat)) 0

def takeDigits (l : List Char) : List Char × List Char :=
  (l.takeWhile Char.isDigit, l.dropWhile Char.isDigit)

def parseFloatAux (l : List Char) : JsNum :=
  let signed : Bool × List Char :=
    match l with
    | '-' :: r => (true, r)
    | '+' :: r => (false, r)
    | _ => (false, l)
  let neg := signed.1
  let l1 := signed.2
  if l1.take 8 = "Infinity".data then JsNum.inf neg
  else
    let intPart := takeDigits l1
    let afterInt := intPart.2
    let fracSplit : List Char × List Char :=
      match afterInt with
      | '.' :: r => takeDigits r
      | _ => ([], afterInt)
    let intD := intPart.1
    let fracD := fracSplit.1
    if intD.isEmpty && fracD.isEmpty then JsNum.nan
    else
      let expVal : Int :=
        match fracSplit.2 with
        | e :: rest =>
          if e == 'e' || e == 'E' then
            let esigned : Int × List Char :=
              match rest with
              | '-' :: rr => (-1, rr)
              | '+' :: rr => (1, rr)
              | _ => (1, rest)
            let expD := (takeDigits esigned.2).1
            if expD.isEmpty then 0 else esigned.1 * (digitsToNat expD : Int)
          else 0
        | [] => 0
      -- value = ±(intDigits.fracDigits) · 10^expVal, built as a single
      -- normalized fraction from integer parts
      let digits : Nat := digitsToNat intD * Nat.pow 10 fracD.length + digitsToNat fracD
      let baseDen : Nat := Nat.pow 10 fracD.length
      let signedNum : Int := if neg then -(digits : Int) else (digits : Int)
      if 0 ≤ expVal then
        JsNum.fin (mkRat (signedNum * ((Nat.pow 10 expVal.toNat : Nat) : Int)) baseDen)
      else JsNum.fin (mkRat signedNum (baseDen * Nat.pow 10 (-expVal).toNat))

/-- JS `parseFloat`. -/
def parseFloat (s : String) : JsNum := parseFloatAux (s.data.dropWhile jsIsSpace)

/-- Two-digit zero-padded rendering of `n < 100`. -/
def twoDigitStr (n : Nat) : String := if n < 10 then "0" ++ toString n else toString n

/-- `⌊100·q + 1/2⌋` computed on the numerator/denominator pair:
`(200·num + den).fdiv (2·den)` (floor division; `den > 0`). -/
def roundHalfUp100 (q : ℚ) : Int := (200 * q.num + (q.den : Int)).fdiv (2 * (q.den : Int))

/-- `x.toFixed(2)` for a nonnegative exact value: nearest multiple of 1/100,
ties towards the larger numerator (ECMA `Number.prototype.toFixed`). -/
def jsToFixed2Nonneg (q : ℚ) : String :=
  let n : Nat := (roundHalfUp100 q).toNat
  toString (n / 100) ++ "." ++ twoDigitStr (n % 100)

/-- `x.toFixed(2)` on an exact value (negative values render as `-` plus the
rendering of the magnitude, per ECMA). -/
def jsToFixed2 (q : ℚ) : String :=
  if q < 0 then "-" ++ jsToFixed2Nonneg (-q) else jsToFixed2Nonneg q

/-- `verifiedAmount.toFixed(2)` guarded by `!isNaN(verifiedAmount)`
(admin.js lines 920-922): `none` means the guard failed and no assignment
happens. -/
def renderJsNumToFixed2 : JsNum → Option String
  | JsNum.nan => none
  | JsNum.inf neg => some (if neg then "-Infinity" else "Infinity")
  | JsNum.fin q => some (jsToFixed2 q)

/-- JS `x > n` where `x` may be NaN or infinite. -/
def jsGt (x : JsNum) (n : ℚ) : Bool :=
  match x with
  | JsNum.nan => false
  | JsNum.inf neg => !neg
  | JsNum.fin a => decide (n < a)

/-! ## The extraction pipeline's post-processing (`processImage`)

The model's structured JSON answer is a record of optional fields.  The
verification reply (third model call) is an oracle string input. -/

structure ExtractedData where
  date : Option String
  utr : Option String
  amount_in_inr : Option String
  is_edited : Option Bool
  utr_alternatives : Option (List String)
deriving DecidableEq, Repr

/-- Amount sanity-check block, admin.js lines 883-924.  Returns the updated
data and the number of verification calls issued (0 or 1). -/
def amountStep (d : ExtractedData) (verifyReplyRaw : String) : ExtractedData × Nat :=
  match d.amount_in_inr with
  | none => (d, 0)
  | some s =>
    if s = "" then (d, 0)
    else
      let amount := parseFloat (removeCommas s)
      if jsGt amount 100000 then
        let vt := jsTrim verifyReplyRaw
        let verified : JsNum :=
          if jsToLower vt = "correct" then amount
          else if jsToLower vt = "not found" then amount
          else parseFloat vt
        match renderJsNumToFixed2 verified with
        | some out => ({ d with amount_in_inr := some out }, 1)
        | none => (d, 1)
      else (d, 0)

/-- UTR override block, admin.js lines 926-934. -/
def utrStep (rawText : String) (d : ExtractedData) : ExtractedData :=
  let ms := utrMatches rawText
  if ms.isEmpty then d
  else if !(jsFalsyStr d.utr) && ms.contains (d.utr.getD "") then d
  else
    let newUtr := ((ms.find? (fun m => startsWith4 m)).getD (ms.headD ""))
    let alts := if ms.length > 1 then some (ms.filter (fun u => u ≠ newUtr)) else d.utr_alternatives
    { d with utr := some newUtr, utr_alternatives := alts }

/-- The pure post-processing done by `processImage` after the structured
answer is parsed: the amount block (lines 883-924) runs first, then the UTR
override (lines 926-934). -/
def postProcess (rawText : String) (d : ExtractedData) (verifyReply : String) :
    ExtractedData × Nat :=
  let stepped := amountStep d verifyReply
  (utrStep rawText stepped.1, stepped.2)

/-! ## Data model (mongoose schemas, admin.js lines 676-714)

Mongo ObjectIds are opaque strings; timestamps are milliseconds as naturals. -/

structure UserRec where
  id : String
  apiKey : String
  name : String
  email : String
  isAdmin : Bool
  requestCount : Nat
  createdAt : Nat
deriving DecidableEq, Repr

structure TxnRec where
  userId : String
  date : Option String
  utr : Option String
  amount_in_inr : Option String
  createdAt : Nat
deriving DecidableEq, Repr

structure ProcessingData where
  pdate : String
  utr : String
  amount_in_inr : String
  is_edited : Bool
deriving DecidableEq, Repr

structure LogRec where
  userId : String
  timestamp : Nat
  processingData : ProcessingData
deriving DecidableEq, Repr

structure Store where
  users : List UserRec
  transactions : List TxnRec
  logs : List LogRec
deriving DecidableEq, Repr

/-- HTTP response surface relevant to the claims: the status, the `{error}`
body field when present, and the 429 body's reset timestamp. -/
structure Response where
  status : Nat
  error : Option String
  resetTime : Option Nat
deriving DecidableEq, Repr

/-! ## Rate limiter (admin.js lines 728-741)

Modelled from the spec: `express-rate-limit` itself is an external library
not present in the repository; the spec describes its configured behaviour
as "a fixed-window counter (20 requests per 60 seconds) keyed by user
identity, skipped for admins", rejecting with a retryable error carrying a
reset timestamp.  The configuration constants (`windowMs` 60000, `max` 20,
key `req.user._id`, skip `req.user.isAdmin`, the 429 body with
`resetTime = Date.now() + 60000`) are taken from the source. -/

def rlWindowMs : Nat := 60000

/-- `max: 20` (admin.js line 730). -/
def rlMax : Nat := 20

/-- The 429 response produced by the configured handler (admin.js 732-739). -/
def rl429 (reset : Nat) : Response :=
  { status := 429
    error := some "Too many requests, please try again in a minute."
    resetTime := some reset }

/-- Per-key limiter state: key, window start, count within the window. -/
abbrev RLState := List (String × Nat × Nat)

inductive RLOutcome
  | allowed
  | rejected (resp : Response)
deriving DecidableEq, Repr, Inhabited

/-- Replace (or insert) the entry for `k`. -/
def rlSet (k : String) (v : Nat × Nat) : RLState → RLState
  | [] => [(k, v)]
  | (k', v') :: rest => if k' = k then (k, v) :: rest else (k', v') :: rlSet k v rest

/-- One request through the limiter at time `t` for key `k`: admins are
skipped; otherwise the key's window counter is advanced and the request is
rejected once the count within the current window exceeds `rlMax`. -/
def rlHandle (isAdmin : Bool) (k : String) (t : Nat) (rl : RLState) :
    RLOutcome × RLState :=
  if isAdmin then (RLOutcome.allowed, rl)
  else
    match rl.lookup k with
    | none => (RLOutcome.allowed, rlSet k (t, 1) rl)
    | some (ws, c) =>
      if t < ws + rlWindowMs then
        if c + 1 ≤ rlMax then (RLOutcome.allowed, rlSet k (ws, c + 1) rl)
        else (RLOutcome.rejected (rl429 (t + rlWindowMs)), rlSet k (ws, c + 1) rl)
      else (RLOutcome.allowed, rlSet k (t, 1) rl)

/-- A sequence of requests by one key through the limiter. -/
def rlRun (isAdmin : Bool) (k : String) (rl : RLState) : List Nat → List RLOutcome
  | [] => []
  | t :: ts =>
    let step := rlHandle isAdmin k t rl
    step.1 :: rlRun isAdmin k step.2 ts

/-! ## Rate-limit headers middleware (admin.js lines 744-766) -/

structure RateInfo where
  remaining : Option Int
  resetTime : Option Nat
deriving DecidableEq, Repr

/-- Headers added by the `res.send` wrapper when `this.rateLimit` exists:
note the limit header is the hard-coded string "30" (line 754). -/
def rateLimitHeadersOf (info : Option RateInfo) (now : Nat) : List (String × String) :=
  match info with
  | none => []
  | some i =>
    let remaining : Int := max 0 (i.remaining.getD 0)
    let reset : Nat := now + i.resetTime.getD 60000
    [("X-RateLimit-Limit", "30"),
     ("X-RateLimit-Remaining", toString remaining),
     ("X-RateLimit-Reset", toString reset)]

/-! ## Middleware: authentication and admin check (admin.js lines 768-798) -/

/-- `authenticateUser`: look the `X-API-Key` header up in the user store. -/
def authenticate (st : Store) (key : Option String) : Except Response UserRec :=
  match key with
  | none => Except.error { status := 401, error := some "Unauthorized: API key required", resetTime := none }
  | some k =>
    match st.users.find? (fun u => u.apiKey = k) with
    | none => Except.error { status := 401, error := some "Unauthorized: Invalid API key", resetTime := none }
    | some u => Except.ok u

/-- `requireAdmin`: re-fetch the user by id and require the admin flag. -/
def requireAdminCheck (st : Store) (caller : UserRec) : Option Response :=
  match st.users.find? (fun u => u.id = caller.id) with
  | none => some { status := 403, error := some "Forbidden: Admin access required", resetTime := none }
  | some u =>
    if u.isAdmin then none
    else some { status := 403, error := some "Forbidden: Admin access required", resetTime := none }

/-! ## `processImage` as a whole (admin.js lines 810-940)

The two model calls are oracles: `failure` is the exception path, `ok`
carries the raw text, the parsed structured answer (`none` when the reply
held no JSON object) and the verification-call reply text. -/

inductive ModelOracle
  | failure
  | ok (rawText : String) (structured : Option ExtractedData) (verifyReply : String)
deriving DecidableEq, Repr

def processImage : ModelOracle → Except String ExtractedData
  | ModelOracle.failure => Except.error "An error occurred while processing the image."
  | ModelOracle.ok _ none _ => Except.error "Failed to extract structured data from the text."
  | ModelOracle.ok raw (some d) reply => Except.ok (postProcess raw d reply).1

/-! ## POST /api/process-image persistence (admin.js lines 1016-1074) -/

/-- The final length check (lines 1031-1033): a truthy UTR whose length is
not 12 becomes the sentinel `'N/A'`. -/
def normalizeUtr (d : ExtractedData) : ExtractedData :=
  match d.utr with
  | none => d
  | some u => if u ≠ "" ∧ u.length ≠ 12 then { d with utr := some "N/A" } else d

/-- The successful tail of the handler: normalize the UTR, save one
Transaction, save one Log (with `|| 'N/A'` defaults), `$inc` the caller's
`requestCount` by 1, respond 200. -/
def processImageCore (st : Store) (caller : UserRec) (d0 : ExtractedData) (now : Nat) :
    Store × Response :=
  let d := normalizeUtr d0
  let txn : TxnRec :=
    { userId := caller.id, date := d.date, utr := d.utr
      amount_in_inr := d.amount_in_inr, createdAt := now }
  let lg : LogRec :=
    { userId := caller.id, timestamp := now
      processingData :=
        { pdate := jsOrNA d.date, utr := jsOrNA d.utr
          amount_in_inr := jsOrNA d.amount_in_inr, is_edited := d.is_edited.getD false } }
  let users' := st.users.map fun u =>
    if u.id = caller.id then { u with requestCount := u.requestCount + 1 } else u
  ({ users := users', transactions := st.transactions ++ [txn], logs := st.logs ++ [lg] },
   { status := 200, error := none, resetTime := none })

/-! ## GET /api/logs (admin.js lines 1077-1135) -/

/-- Query parameters after defaulting (`page = 1`, `limit = 10` applied at
destructuring); dates are the parsed `Date` values in milliseconds. -/
structure LogsQuery where
  startDate : Option Nat
  endDate : Option Nat
  page : Nat
  limit : Nat
deriving DecidableEq, Repr

/-- One calendar day as used by `endDateTime.setDate(getDate() + 1)`
(idealized to a fixed 24h in milliseconds). -/
def oneDayMs : Nat := 86400000

/-- The mongo query `{ userId, timestamp: { $gte: startDate, $lte: endDate + 1 day } }`. -/
def logMatches (uid : String) (q : LogsQuery) (l : LogRec) : Bool :=
  l.userId = uid
    && (match q.startDate with | none => true | some s => decide (s ≤ l.timestamp))
    && (match q.endDate with | none => true | some e => decide (l.timestamp ≤ e + oneDayMs))

def logTsGe (a b : LogRec) : Prop := b.timestamp ≤ a.timestamp

instance : DecidableRel logTsGe := fun a b => Nat.decLe b.timestamp a.timestamp

instance : IsTotal LogRec logTsGe := ⟨fun a b => Nat.le_total b.timestamp a.timestamp⟩

instance : IsTrans LogRec logTsGe := ⟨fun _ _ _ hab hbc => le_trans hbc hab⟩

/-- `.sort({ timestamp: -1 })`. -/
def logsSortDesc (ls : List LogRec) : List LogRec := List.insertionSort logTsGe ls

/-- The selection performed by the handler: filter to the caller's logs in
the date range, newest first, skip `(page-1)*limit`, take `limit`.  (The
response then formats each selected log 1:1 for display.)  Also returns the
total matching count used for pagination. -/
def logsHandler (st : Store) (caller : UserRec) (q : LogsQuery) : List LogRec × Nat :=
  let matching := st.logs.filter (logMatches caller.id q)
  let sorted := logsSortDesc matching
  ((sorted.drop ((q.page - 1) * q.limit)).take q.limit, matching.length)

/-! ## GET /api/admin/users (admin.js lines 986-1009) -/

structure AdminUserView where
  id : String
  name : String
  email : String
  apiKey : String
  requestCount : Nat
  createdAt : Nat
deriving DecidableEq, Repr

def userCreatedGe (a b : UserRec) : Prop := b.createdAt ≤ a.createdAt

instance : DecidableRel userCreatedGe := fun a b => Nat.decLe b.createdAt a.createdAt

instance : IsTotal UserRec userCreatedGe := ⟨fun a b => Nat.le_total b.createdAt a.createdAt⟩

instance : IsTrans UserRec userCreatedGe := ⟨fun _ _ _ hab hbc => le_trans hbc hab⟩

/-- `.sort('-createdAt')`. -/
def usersSortDesc (us : List UserRec) : List UserRec := List.insertionSort userCreatedGe us

/-- The admin listing: non-admin users newest first, each with
`requestCount` recomputed as `Log.countDocuments({ userId })` — not the
user's stored `requestCount` field. -/
def adminUsersView (st : Store) : List AdminUserView :=
  (usersSortDesc (st.users.filter (fun u => !u.isAdmin))).map fun u =>
    { id := u.id, name := u.name, email := u.email, apiKey := u.apiKey
      requestCount := (st.logs.filter (fun l => l.userId = u.id)).length
      createdAt := u.createdAt }

/-! ## The routed server step

One request against the store and limiter state.  Oracle inputs (generated
api key and ObjectId, the model oracle, the clock) are fields of the
request record.  The mail relay is treated as always succeeding. -/

inductive Endpoint
  | processImage
  | adminUsersPost
  | adminUsersGet
  | logsGet
  | health
deriving DecidableEq, Repr

structure ServerInput where
  endpoint : Endpoint
  apiKey : Option String
  file : Option ModelOracle
  body : Option (String × String)
  newApiKey : String
  newId : String
  now : Nat
  q : LogsQuery
deriving DecidableEq, Repr

def serverStep (st : Store) (rl : RLState) (inp : ServerInput) :
    Store × RLState × Response :=
  if inp.endpoint = Endpoint.health then
    (st, rl, { status := 200, error := none, resetTime := none })
  else
    match authenticate st inp.apiKey with
    | Except.error resp => (st, rl, resp)
    | Except.ok caller =>
      match inp.endpoint with
      | Endpoint.health => (st, rl, { status := 200, error := none, resetTime := none })
      | Endpoint.processImage =>
        match rlHandle caller.isAdmin caller.id inp.now rl with
        | (RLOutcome.rejected resp, rl') => (st, rl', resp)
        | (RLOutcome.allowed, rl') =>
          match inp.file with
          | none => (st, rl', { status := 400, error := some "No image file uploaded", resetTime := none })
          | some oracle =>
            match processImage oracle with
            | Except.error msg => (st, rl', { status := 500, error := some msg, resetTime := none })
            | Except.ok d =>
              let core := processImageCore st caller d inp.now
              (core.1, rl', core.2)
      | Endpoint.adminUsersPost =>
        match requireAdminCheck st caller with
        | some resp => (st, rl, resp)
        | none =>
          match inp.body with
          | none => (st, rl, { status := 500, error := some "Error creating user", resetTime := none })
          | some nameEmail =>
            let newUser : UserRec :=
              { id := inp.newId, apiKey := inp.newApiKey, name := nameEmail.1
                email := nameEmail.2, isAdmin := false, requestCount := 0, createdAt := inp.now }
            ({ st with users := st.users ++ [newUser] }, rl,
             { status := 200, error := none, resetTime := none })
      | Endpoint.adminUsersGet =>
        match requireAdminCheck st caller with
        | some resp => (st, rl, resp)
        | none => (st, rl, { status := 200, error := none, resetTime := none })
      | Endpoint.logsGet => (st, rl, { status := 200, error := none, resetTime := none })

/-! ## Helper lemmas -/

/-- The amount block never touches the `utr` field. -/
theorem amountStep_utr (d : ExtractedData) (r : String) :
    ((amountStep d r).1).utr = d.utr := by
  unfold amountStep
  cases hd : d.amount_in_inr with
  | none => rfl
  | some s =>
    dsimp only
    split
    · rfl
    · split
      · split <;> rfl
      · rfl

/-- Successful authentication returns a member of the user store. -/
theorem authenticate_ok_mem {st : Store} {key : Option String} {c : UserRec}
    (h : authenticate st key = Except.ok c) : c ∈ st.users := by
  cases key with
  | none => simp [authenticate] at h
  | some k =>
    cases hf : st.users.find? (fun u => u.apiKey = k) with
    | none => simp [authenticate, hf] at h
    | some u =>
      simp [authenticate, hf] at h
      exact h ▸ List.mem_of_find?_eq_some hf

/-- In a store with pairwise distinct user ids, re-fetching a stored user by
id returns that user. -/
theorem find?_id_of_mem {l : List UserRec} {c : UserRec} (hc : c ∈ l)
    (hn : (l.map (fun u => u.id)).Nodup) :
    l.find? (fun u => u.id = c.id) = some c := by
  induction l with
  | nil => cases hc
  | cons u rest ih =>
    rw [List.map_cons, List.nodup_cons] at hn
    rcases List.mem_cons.1 hc with rfl | hmem
    · exact List.find?_cons_of_pos _ (by simp)
    · have hne : ¬(u.id = c.id) := by
        intro he
        exact hn.1 (he ▸ List.mem_map_of_mem (fun v => v.id) hmem)
      rw [List.find?_cons_of_neg _ (by simpa using hne)]
      exact ih hmem hn.2

/-! ## Claim C10 -/

/-- C10: whenever rate-limit information is present on a response, the
`X-RateLimit-Limit` header is set to the string "30", even though the
limiter's enforced per-user maximum `rlMax` is 20 requests per window. -/
theorem c10_limit_header_thirty :
    (∀ (i : RateInfo) (now : Nat),
        (rateLimitHeadersOf (some i) now).lookup "X-RateLimit-Limit" = some "30")
    ∧ rlMax = 20 ∧ "30" ≠ toString rlMax := by
  refine ⟨fun i now => ?_, rfl, by decide⟩
  simp [rateLimitHeadersOf, List.lookup]

/-- Witness for C10 at a concrete input. -/
theorem c10_limit_header_thirty_witness :
    (rateLimitHeadersOf (some { remaining := some 5, resetTime := none }) 0).lookup
      "X-RateLimit-Limit" = some "30" :=
  c10_limit_header_thirty.1 { remaining := some 5, resetTime := none } 0

/-! ## Claim C9 -/

/-- A store whose single non-admin user has a stored cumulative
`requestCount` of 5 but no Log records. -/
def c9Store : Store :=
  { users := [{ id := "u1", apiKey := "k1", name := "N", email := "e@x"
                isAdmin := false, requestCount := 5, createdAt := 0 }]
    transactions := []
    logs := [] }

/-- C9: every user row returned by GET /api/admin/users carries a
`requestCount` equal to the number of that user's Log records currently in
the store, and this is independent of the user's stored cumulative
`requestCount` field — the demo store shows the two differing (stored 5,
reported 0). -/
theorem c9_admin_listing_counts :
    (∀ (st : Store) (v : AdminUserView), v ∈ adminUsersView st →
        v.requestCount = (st.logs.filter (fun l => l.userId = v.id)).length)
    ∧ (∃ v ∈ adminUsersView c9Store, ∃ u ∈ c9Store.users,
        u.id = v.id ∧ u.requestCount = 5 ∧ v.requestCount = 0) := by
  constructor
  · intro st v hv
    unfold adminUsersView at hv
    rcases List.mem_map.1 hv with ⟨u, _, rfl⟩
    rfl
  · refine ⟨{ id := "u1", name := "N", email := "e@x", apiKey := "k1"
              requestCount := 0, createdAt := 0 }, by decide, ?_⟩
    refine ⟨{ id := "u1", apiKey := "k1", name := "N", email := "e@x"
              isAdmin := false, requestCount := 5, createdAt := 0 }, by decide, by decide⟩

/-- Witness for C9 at a concrete input. -/
theorem c9_admin_listing_counts_witness :
    ({ id := "u1", name := "N", email := "e@x", apiKey := "k1"
       requestCount := 0, createdAt := 0 } : AdminUserView).requestCount
      = (c9Store.logs.filter
          (fun l => l.userId = ({ id := "u1", name := "N", email := "e@x", apiKey := "k1"
                                  requestCount := 0, createdAt := 0 } : AdminUserView).id)).length :=
  c9_admin_listing_counts.1 c9Store _ (by decide)

/-! ## Claim C1 -/

/-- Raw text containing exactly two 12-digit sequences, one starting with 4. -/
def c1Raw : String := "412345678901 512345678901"

/-- A structured model answer proposing the sequence that does not start
with 4 (but which does occur in the raw text). -/
def c1Data : ExtractedData :=
  { date := none, utr := some "512345678901", amount_in_inr := none
    is_edited := none, utr_alternatives := none }

/-- C1 counterexample: with two 12-digit sequences of which exactly one
starts with 4, the pipeline keeps the model's proposed non-4 sequence when
it occurs in the raw text, instead of forcing the 4-starting one. -/
theorem c1_counterexample :
    (utrMatches c1Raw).length = 2
    ∧ ((utrMatches c1Raw).filter (fun m => startsWith4 m)).length = 1
    ∧ (utrMatches c1Raw).find? (fun m => startsWith4 m) = some "412345678901"
    ∧ c1Data.utr = some "512345678901"
    ∧ (postProcess c1Raw c1Data "").1.utr = some "512345678901"
    ∧ some "512345678901" ≠ some "412345678901" := by
  refine ⟨rfl, rfl, rfl, rfl, rfl, by decide⟩

/-- C1 (amended): with exactly two 12-digit sequences in the raw text of
which exactly one starts with 4, the pipeline sets the UTR to the
4-starting sequence whenever the model's proposed UTR is absent, empty, or
not among the scanned sequences; when the model proposed one of the scanned
sequences, that proposal is kept unchanged. -/
theorem c1_utr_selection (raw : String) (d : ExtractedData) (reply : String)
    (h2 : (utrMatches raw).length = 2)
    (h4 : ((utrMatches raw).filter (fun m => startsWith4 m)).length = 1) :
    ((jsFalsyStr d.utr = true ∨ ∀ u, d.utr = some u → u ∉ utrMatches raw) →
      ∃ w ∈ utrMatches raw, startsWith4 w = true ∧ (postProcess raw d reply).1.utr = some w)
    ∧ (∀ u, d.utr = some u → u ≠ "" → u ∈ utrMatches raw →
        (postProcess raw d reply).1.utr = some u) := by
  have hutr : ((amountStep d reply).1).utr = d.utr := amountStep_utr d reply
  have hne : ¬(utrMatches raw).isEmpty := by
    intro h
    rw [List.isEmpty_iff] at h
    rw [h] at h2
    simp at h2
  constructor
  · intro hmodel
    have hfind : ∃ w, (utrMatches raw).find? (fun m => startsWith4 m) = some w := by
      have hpos : 0 < ((utrMatches raw).filter (fun m => startsWith4 m)).length := by
        omega
      rcases List.exists_mem_of_length_pos hpos with ⟨x, hx⟩
      rcases List.mem_filter.1 hx with ⟨hxm, hxp⟩
      have : ((utrMatches raw).find? (fun m => startsWith4 m)).isSome := by
        rw [List.find?_isSome]
        exact ⟨x, hxm, hxp⟩
      exact Option.isSome_iff_exists.1 this
    rcases hfind with ⟨w, hw⟩
    refine ⟨w, List.mem_of_find?_eq_some hw, List.find?_some hw, ?_⟩
    show (utrStep raw (amountStep d reply).1).utr = some w
    unfold utrStep
    rw [if_neg hne]
    have hcond : ¬((!(jsFalsyStr ((amountStep d reply).1).utr)
        && (utrMatches raw).contains (((amountStep d reply).1).utr.getD "")) = true) := by
      rcases hmodel with hf | hnm
      · rw [hutr]; simp [hf]
      · cases hd : d.utr with
        | none => rw [hutr, hd]; simp [jsFalsyStr]
        | some u => rw [hutr, hd]; simp [jsFalsyStr, List.contains, hnm u hd]
    rw [if_neg hcond]
    simp [hw]
  · intro u hd hue hmem
    show (utrStep raw (amountStep d reply).1).utr = some u
    unfold utrStep
    rw [if_neg hne]
    have hcond : ((!(jsFalsyStr ((amountStep d reply).1).utr)
        && (utrMatches raw).contains (((amountStep d reply).1).utr.getD "")) = true) := by
      rw [hutr, hd]
      simp [jsFalsyStr, hue, List.contains, hmem]
    rw [if_pos hcond, hutr, hd]

/-- A structured answer with no UTR at all, for the C1 witness. -/
def c1NoUtrData : ExtractedData :=
  { date := none, utr := none, amount_in_inr := none
    is_edited := none, utr_alternatives := none }

/-- Witness for C1 (amended) at a concrete input. -/
theorem c1_utr_selection_witness :
    ∃ w ∈ utrMatches c1Raw, startsWith4 w = true
      ∧ (postProcess c1Raw c1NoUtrData "").1.utr = some w :=
  (c1_utr_selection c1Raw c1NoUtrData "" (by decide) (by decide)).1 (Or.inl (by decide))

/-! ## Claim C2 -/

def c2User : UserRec :=
  { id := "u1", apiKey := "k1", name := "N", email := "e@x"
    isAdmin := false, requestCount := 0, createdAt := 0 }

def c2Store : Store := { users := [c2User], transactions := [], logs := [] }

/-- An extraction result whose UTR is the empty string. -/
def c2Data : ExtractedData :=
  { date := none, utr := some "", amount_in_inr := none
    is_edited := none, utr_alternatives := none }

/-- C2 counterexample: an extracted UTR equal to the empty string has length
0 ≠ 12, yet the `extractedData.utr && ...` guard skips it (empty strings are
falsy), so the stored Transaction record contains a UTR that is neither 12
digits long nor the `'N/A'` sentinel. -/
theorem c2_counterexample :
    ∃ t ∈ (processImageCore c2Store c2User c2Data 0).1.transactions,
      t.utr = some "" ∧ ("" : String).length ≠ 12 ∧ ("" : String) ≠ "N/A" := by
  decide

/-- C2 (amended): a truthy (present, non-empty) extracted UTR of length ≠ 12
is replaced by the sentinel `'N/A'` before storage; consequently every Log
record written by the handler carries a UTR that is 12 characters long or
the sentinel, and every Transaction written carries a UTR that is absent,
empty, 12 characters long, or the sentinel (the absent/empty escape is what
the counterexample forces). -/
theorem c2_utr_normalization (d : ExtractedData) :
    (∀ u, d.utr = some u → u ≠ "" → u.length ≠ 12 → (normalizeUtr d).utr = some "N/A")
    ∧ (∀ (st : Store) (caller : UserRec) (now : Nat),
        ∀ l ∈ (processImageCore st caller d now).1.logs,
          l ∈ st.logs ∨ l.processingData.utr.length = 12 ∨ l.processingData.utr = "N/A")
    ∧ (∀ (st : Store) (caller : UserRec) (now : Nat),
        ∀ t ∈ (processImageCore st caller d now).1.transactions,
          t ∈ st.transactions ∨ ∀ u, t.utr = some u → u ≠ "" →
            (u.length = 12 ∨ u = "N/A")) := by
  have hnorm : ∀ u, (normalizeUtr d).utr = some u → u ≠ "" → u.length = 12 ∨ u = "N/A" := by
    intro u hu hne
    cases hd : d.utr with
    | none =>
      simp only [normalizeUtr, hd] at hu
      exact absurd hu (by simp)
    | some v =>
      simp only [normalizeUtr, hd] at hu
      by_cases hv : v ≠ "" ∧ v.length ≠ 12
      · rw [if_pos hv] at hu
        simp at hu
        exact Or.inr hu.symm
      · rw [if_neg hv] at hu
        rw [hd] at hu
        simp at hu
        subst hu
        rcases Decidable.not_and_iff_or_not.1 hv with h | h
        · simp at h; exact absurd h hne
        · simp at h; exact Or.inl h
  refine ⟨?_, ?_, ?_⟩
  · intro u hu hne hlen
    simp only [normalizeUtr, hu]
    rw [if_pos ⟨hne, hlen⟩]
  · intro st caller now l hl
    unfold processImageCore at hl
    rcases List.mem_append.1 hl with h | h
    · exact Or.inl h
    · right
      have hl' := List.mem_singleton.1 h
      subst hl'
      show (jsOrNA (normalizeUtr d).utr).length = 12 ∨ jsOrNA (normalizeUtr d).utr = "N/A"
      cases hnu : (normalizeUtr d).utr with
      | none => simp [jsOrNA]
      | some u =>
        by_cases hue : u = ""
        · subst hue; simp [jsOrNA]
        · have := hnorm u hnu hue
          rcases this with h12 | hna
          · left; simpa [jsOrNA, hue] using h12
          · right; simpa [jsOrNA, hue] using hna
  · intro st caller now t ht
    unfold processImageCore at ht
    rcases List.mem_append.1 ht with h | h
    · exact Or.inl h
    · right
      have ht' := List.mem_singleton.1 h
      subst ht'
      intro u hu hne
      exact hnorm u hu hne

/-- A structured answer whose 5-character UTR must be normalized. -/
def c2WitData : ExtractedData :=
  { date := none, utr := some "12345", amount_in_inr := none
    is_edited := none, utr_alternatives := none }

/-- Witness for C2 (amended) at a concrete input. -/
theorem c2_utr_normalization_witness : (normalizeUtr c2WitData).utr = some "N/A" :=
  (c2_utr_normalization c2WitData).1 "12345" rfl (by decide) (by decide)

/-! ## Claim C5 -/

/-- An extraction result whose amount parses above the threshold and has
three decimal places. -/
def c5Data : ExtractedData :=
  { date := none, utr := none, amount_in_inr := some "100000.625"
    is_edited := none, utr_alternatives := none }

/-- C5 counterexample: amount "100000.625" parses to 100000.625 > 100000;
one verification call is made; the reply "correct" is supposed to keep the
amount as the originally parsed value, but `verifiedAmount.toFixed(2)`
rewrites it to "100000.63", a different value. -/
theorem c5_counterexample :
    parseFloat (removeCommas "100000.625") = JsNum.fin (mkRat 800005 8)
    ∧ jsGt (JsNum.fin (mkRat 800005 8)) 100000 = true
    ∧ (amountStep c5Data "correct").2 = 1
    ∧ (amountStep c5Data "correct").1.amount_in_inr = some "100000.63"
    ∧ parseFloat "100000.63" ≠ JsNum.fin (mkRat 800005 8) := by
  refine ⟨by decide, by decide, by decide, by decide, by decide⟩

/-- C5 (amended): an amount parsing to at most the threshold triggers no
verification call and leaves the data unchanged; an amount parsing above
the threshold triggers exactly one call, after which a (trimmed,
case-insensitive) reply of "correct" or "not found" sets the amount to the
originally parsed value formatted to two decimals, a reply parsing to a
finite number sets the amount to that number formatted to two decimals, and
a reply that does not parse as a number leaves the data unchanged. -/
theorem c5_amount_verification (d : ExtractedData) (s reply : String) (a : ℚ)
    (hs : d.amount_in_inr = some s) (hne : s ≠ "")
    (hp : parseFloat (removeCommas s) = JsNum.fin a) :
    (a ≤ 100000 → amountStep d reply = (d, 0))
    ∧ (100000 < a →
        (amountStep d reply).2 = 1
        ∧ ((jsToLower (jsTrim reply) = "correct" ∨ jsToLower (jsTrim reply) = "not found") →
            (amountStep d reply).1.amount_in_inr = some (jsToFixed2 a))
        ∧ (∀ r : ℚ, jsToLower (jsTrim reply) ≠ "correct" → jsToLower (jsTrim reply) ≠ "not found" →
            parseFloat (jsTrim reply) = JsNum.fin r →
            (amountStep d reply).1.amount_in_inr = some (jsToFixed2 r))
        ∧ (jsToLower (jsTrim reply) ≠ "correct" → jsToLower (jsTrim reply) ≠ "not found" →
            parseFloat (jsTrim reply) = JsNum.nan →
            amountStep d reply = (d, 1))) := by
  have hgt : jsGt (parseFloat (removeCommas s)) 100000 = decide (100000 < a) := by
    rw [hp]; rfl
  constructor
  · intro hle
    unfold amountStep
    rw [hs]
    dsimp only
    rw [if_neg hne, hgt, if_neg (by simp [not_lt.2 hle])]
  · intro hlt
    have hstep : amountStep d reply =
        (let verified : JsNum :=
          if jsToLower (jsTrim reply) = "correct" then parseFloat (removeCommas s)
          else if jsToLower (jsTrim reply) = "not found" then parseFloat (removeCommas s)
          else parseFloat (jsTrim reply)
        match renderJsNumToFixed2 verified with
        | some out => ({ d with amount_in_inr := some out }, 1)
        | none => (d, 1)) := by
      unfold amountStep
      rw [hs]
      dsimp only
      rw [if_neg hne, hgt, if_pos (by simp [hlt])]
    refine ⟨?_, ?_, ?_, ?_⟩
    · rw [hstep]
      dsimp only
      split <;> rfl
    · intro hcn
      rw [hstep]
      rcases hcn with hc | hn
      · simp [hc, hp, renderJsNumToFixed2]
      · by_cases hc : jsToLower (jsTrim reply) = "correct"
        · simp [hc, hp, renderJsNumToFixed2]
        · simp [hc, hn, hp, renderJsNumToFixed2]
    · intro r hc hn hr
      rw [hstep]
      simp [hc, hn, hr, renderJsNumToFixed2]
    · intro hc hn hr
      rw [hstep]
      simp [hc, hn, hr, renderJsNumToFixed2]

/-- An extraction result with a large two-decimal amount, for the witness. -/
def c5WitData : ExtractedData :=
  { date := none, utr := none, amount_in_inr := some "200000.5"
    is_edited := none, utr_alternatives := none }

/-- Witness for C5 (amended) at a concrete input. -/
theorem c5_amount_verification_witness :
    (amountStep c5WitData "correct").2 = 1
    ∧ (amountStep c5WitData "correct").1.amount_in_inr = some (jsToFixed2 (mkRat 400001 2)) := by
  have h := (c5_amount_verification c5WitData "200000.5" "correct" (mkRat 400001 2)
    rfl (by decide) (by decide)).2 (by decide)
  exact ⟨h.1, h.2.1 (Or.inl (by decide))⟩

/-! ## Claim C6 -/

/-- C6: on every endpoint other than the health check, a request whose
`X-API-Key` header is missing or matches no stored user's apiKey gets a 401
response with an `{error}` body, regardless of the rest of the request, and
leaves the store (users, transactions, logs) and limiter state unchanged. -/
theorem c6_unauthorized (st : Store) (rl : RLState) (inp : ServerInput)
    (hep : inp.endpoint ≠ Endpoint.health)
    (hkey : inp.apiKey = none ∨ ∃ k, inp.apiKey = some k ∧ ∀ u ∈ st.users, u.apiKey ≠ k) :
    (serverStep st rl inp).1 = st
    ∧ (serverStep st rl inp).2.1 = rl
    ∧ (serverStep st rl inp).2.2.status = 401
    ∧ (serverStep st rl inp).2.2.error.isSome = true := by
  have hauth : ∃ msg, authenticate st inp.apiKey
      = Except.error { status := 401, error := some msg, resetTime := none } := by
    rcases hkey with hnone | ⟨k, hk, hall⟩
    · exact ⟨"Unauthorized: API key required", by rw [hnone]; rfl⟩
    · have hfind : st.users.find? (fun u => u.apiKey = k) = none :=
        List.find?_eq_none.2 (fun u hu => by simpa using hall u hu)
      exact ⟨"Unauthorized: Invalid API key", by rw [hk]; simp [authenticate, hfind]⟩
  rcases hauth with ⟨msg, he⟩
  refine ⟨?_, ?_, ?_, ?_⟩ <;> simp [serverStep, hep, he]

def c6Inp : ServerInput :=
  { endpoint := Endpoint.logsGet, apiKey := none, file := none, body := none
    newApiKey := "", newId := "", now := 0
    q := { startDate := none, endDate := none, page := 1, limit := 10 } }

/-- Witness for C6 at a concrete input. -/
theorem c6_unauthorized_witness :
    (serverStep c2Store [] c6Inp).2.2.status = 401
    ∧ (serverStep c2Store [] c6Inp).1 = c2Store := by
  have h := c6_unauthorized c2Store [] c6Inp (by decide) (Or.inl rfl)
  exact ⟨h.2.2.1, h.1⟩

/-! ## Claim C7 -/

/-- C7: an authenticated request to an admin endpoint (POST or GET
/api/admin/users) by a caller whose admin flag is not set (in a store with
distinct user ids, so the `requireAdmin` re-fetch finds the caller) gets a
403 response with an `{error}` body, and neither the store nor the limiter
state changes — in particular no user is created. -/
theorem c7_admin_forbidden (st : Store) (rl : RLState) (inp : ServerInput) (caller : UserRec)
    (hep : inp.endpoint = Endpoint.adminUsersPost ∨ inp.endpoint = Endpoint.adminUsersGet)
    (hauth : authenticate st inp.apiKey = Except.ok caller)
    (hadmin : caller.isAdmin = false)
    (hids : (st.users.map (fun u => u.id)).Nodup) :
    (serverStep st rl inp).1 = st
    ∧ (serverStep st rl inp).2.1 = rl
    ∧ (serverStep st rl inp).2.2.status = 403
    ∧ (serverStep st rl inp).2.2.error.isSome = true := by
  have hmem := authenticate_ok_mem hauth
  have hfind := find?_id_of_mem hmem hids
  have hreq : requireAdminCheck st caller
      = some { status := 403, error := some "Forbidden: Admin access required", resetTime := none } := by
    simp [requireAdminCheck, hfind, hadmin]
  rcases hep with h | h <;> exact ⟨by simp [serverStep, h, hauth, hreq],
    by simp [serverStep, h, hauth, hreq], by simp [serverStep, h, hauth, hreq],
    by simp [serverStep, h, hauth, hreq]⟩

def c7Inp : ServerInput :=
  { endpoint := Endpoint.adminUsersPost, apiKey := some "k1", file := none
    body := some ("X", "x@y"), newApiKey := "k9", newId := "u9", now := 0
    q := { startDate := none, endDate := none, page := 1, limit := 10 } }

/-- Witness for C7 at a concrete input. -/
theorem c7_admin_forbidden_witness :
    (serverStep c2Store [] c7Inp).2.2.status = 403
    ∧ (serverStep c2Store [] c7Inp).1 = c2Store := by
  have h := c7_admin_forbidden c2Store [] c7Inp c2User (Or.inl rfl) rfl (by decide) (by decide)
  exact ⟨h.2.2.1, h.1⟩

/-! ## Claim C3 -/

/-- C3: a successful POST /api/process-image (authenticated caller, not
rate-limited, file present, extraction succeeds) appends exactly one new
Transaction and exactly one new Log, both owned by the caller; the caller's
user record is replaced by the same record with `requestCount` one larger
(all other fields unchanged); every other user record survives unchanged;
no user is added or removed; and the response is a 200 without error. -/
theorem c3_success_effects (st : Store) (rl rl2 : RLState) (inp : ServerInput)
    (caller : UserRec) (oracle : ModelOracle) (d : ExtractedData)
    (hep : inp.endpoint = Endpoint.processImage)
    (hauth : authenticate st inp.apiKey = Except.ok caller)
    (hmem : caller ∈ st.users)
    (hrl : rlHandle caller.isAdmin caller.id inp.now rl = (RLOutcome.allowed, rl2))
    (hfile : inp.file = some oracle)
    (hok : processImage oracle = Except.ok d) :
    (∃ t, (serverStep st rl inp).1.transactions = st.transactions ++ [t] ∧ t.userId = caller.id)
    ∧ (∃ l, (serverStep st rl inp).1.logs = st.logs ++ [l] ∧ l.userId = caller.id)
    ∧ ({ caller with requestCount := caller.requestCount + 1 } : UserRec)
        ∈ (serverStep st rl inp).1.users
    ∧ (∀ u ∈ st.users, u.id ≠ caller.id → u ∈ (serverStep st rl inp).1.users)
    ∧ (serverStep st rl inp).1.users.length = st.users.length
    ∧ (serverStep st rl inp).2.2.status = 200
    ∧ (serverStep st rl inp).2.2.error = none := by
  have hred : (serverStep st rl inp).1 = (processImageCore st caller d inp.now).1
      ∧ (serverStep st rl inp).2.2 = (processImageCore st caller d inp.now).2 := by
    constructor <;> simp [serverStep, hep, hauth, hrl, hfile, hok]
  have upd : (fun u => if u.id = caller.id
      then { u with requestCount := u.requestCount + 1 } else u) caller
      = ({ caller with requestCount := caller.requestCount + 1 } : UserRec) := by
    simp
  refine ⟨⟨{ userId := caller.id, date := (normalizeUtr d).date, utr := (normalizeUtr d).utr
             amount_in_inr := (normalizeUtr d).amount_in_inr, createdAt := inp.now }, ?_, rfl⟩,
          ⟨{ userId := caller.id, timestamp := inp.now
             processingData :=
               { pdate := jsOrNA (normalizeUtr d).date, utr := jsOrNA (normalizeUtr d).utr
                 amount_in_inr := jsOrNA (normalizeUtr d).amount_in_inr
                 is_edited := (normalizeUtr d).is_edited.getD false } }, ?_, rfl⟩,
          ?_, ?_, ?_, ?_, ?_⟩
  · rw [hred.1]; rfl
  · rw [hred.1]; rfl
  · rw [hred.1]
    show _ ∈ st.users.map _
    exact upd ▸ List.mem_map_of_mem _ hmem
  · intro u hu hne
    rw [hred.1]
    show _ ∈ st.users.map _
    have : (fun v => if v.id = caller.id
        then { v with requestCount := v.requestCount + 1 } else v) u = u := by
      simp [hne]
    exact this ▸ List.mem_map_of_mem _ hu
  · rw [hred.1]
    exact List.length_map st.users _
  · rw [hred.2]; rfl
  · rw [hred.2]; rfl

def c3Data : ExtractedData :=
  { date := some "12 Jun 2024", utr := some "453065310100", amount_in_inr := some "2500.00"
    is_edited := some false, utr_alternatives := none }

def c3Inp : ServerInput :=
  { endpoint := Endpoint.processImage, apiKey := some "k1"
    file := some (ModelOracle.ok "" (some c3Data) ""), body := none
    newApiKey := "", newId := "", now := 0
    q := { startDate := none, endDate := none, page := 1, limit := 10 } }

/-- Witness for C3 at a concrete input. -/
theorem c3_success_effects_witness :
    (({ c2User with requestCount := c2User.requestCount + 1 } : UserRec)
        ∈ (serverStep c2Store [] c3Inp).1.users)
    ∧ (serverStep c2Store [] c3Inp).2.2.status = 200 := by
  have h := c3_success_effects c2Store [] [("u1", (0, 1))] c3Inp c2User
    (ModelOracle.ok "" (some c3Data) "") c3Data rfl rfl (by decide)
    (by decide) rfl rfl
  exact ⟨h.2.2.1, h.2.2.2.2.2.1⟩

/-! ## Claim C8 -/

/-- C8: the log listing returned for an authenticated GET /api/logs with
page `p ≥ 1` and limit `n` contains only logs drawn from the store that
belong to the caller and fall inside the requested date bounds (`timestamp
≥ startDate` and `timestamp ≤ endDate + one day`, matching the handler's
`$gte`/`$lte` query); it is sorted by timestamp descending, holds at most
`n` entries, and is exactly the slice of the sorted matching list that
skips the first `(p-1)·n` entries. -/
theorem c8_logs_query (st : Store) (caller : UserRec) (q : LogsQuery)
    (hp : 1 ≤ q.page) :
    (∀ l ∈ (logsHandler st caller q).1,
        l ∈ st.logs ∧ l.userId = caller.id
        ∧ (∀ s, q.startDate = some s → s ≤ l.timestamp)
        ∧ (∀ e, q.endDate = some e → l.timestamp ≤ e + oneDayMs))
    ∧ (logsHandler st caller q).1.length ≤ q.limit
    ∧ List.Sorted logTsGe (logsHandler st caller q).1
    ∧ (logsHandler st caller q).1
        = ((logsSortDesc (st.logs.filter (logMatches caller.id q))).drop
            ((q.page - 1) * q.limit)).take q.limit := by
  have hsub : List.Sublist (logsHandler st caller q).1
      (logsSortDesc (st.logs.filter (logMatches caller.id q))) := by
    show (((logsSortDesc _).drop _).take _).Sublist _
    exact (List.take_sublist _ _).trans (List.drop_sublist _ _)
  have hperm : List.Perm (logsSortDesc (st.logs.filter (logMatches caller.id q)))
      (st.logs.filter (logMatches caller.id q)) := List.perm_insertionSort _ _
  refine ⟨?_, ?_, ?_, rfl⟩
  · intro l hl
    have hlf : l ∈ st.logs.filter (logMatches caller.id q) :=
      hperm.mem_iff.1 (hsub.subset hl)
    have hm := List.mem_filter.1 hlf
    have hmatch := hm.2
    unfold logMatches at hmatch
    rw [Bool.and_eq_true, Bool.and_eq_true] at hmatch
    refine ⟨hm.1, by simpa using hmatch.1.1, ?_, ?_⟩
    · intro s hs
      rw [hs] at hmatch
      simpa using hmatch.1.2
    · intro e he
      rw [he] at hmatch
      simpa using hmatch.2
  · exact List.length_take_le _ _
  · have : List.Sorted logTsGe (logsSortDesc (st.logs.filter (logMatches caller.id q))) :=
      List.sorted_insertionSort logTsGe _
    exact this.sublist hsub

def c8Log1 : LogRec :=
  { userId := "u1", timestamp := 100
    processingData := { pdate := "d1", utr := "453065310100", amount_in_inr := "10.00", is_edited := false } }

def c8Log2 : LogRec :=
  { userId := "u1", timestamp := 200
    processingData := { pdate := "d2", utr := "453065310101", amount_in_inr := "20.00", is_edited := false } }

def c8Store : Store := { users := [c2User], transactions := [], logs := [c8Log1, c8Log2] }

def c8Query : LogsQuery := { startDate := none, endDate := none, page := 1, limit := 10 }

/-- Witness for C8 at a concrete input. -/
theorem c8_logs_query_witness :
    List.Sorted logTsGe (logsHandler c8Store c2User c8Query).1
    ∧ (logsHandler c8Store c2User c8Query).1.length ≤ c8Query.limit := by
  have h := c8_logs_query c8Store c2User c8Query (by decide)
  exact ⟨h.2.2.1, h.2.1⟩

/-! ## Claim C4 -/

/-- Outcomes of a run that stays inside the window that started at `t0`
with the counter already at `c`. -/
theorem rlRun_window (k : String) (t0 : Nat) :
    ∀ (ts : List Nat) (c : Nat), (∀ t ∈ ts, t < t0 + rlWindowMs) →
      ∀ (i t : Nat), ts[i]? = some t →
        (rlRun false k [(k, (t0, c))] ts)[i]?
          = some (if c + i + 1 ≤ rlMax then RLOutcome.allowed
                  else RLOutcome.rejected (rl429 (t + rlWindowMs))) := by
  intro ts
  induction ts with
  | nil => intro c _ i t hit; simp at hit
  | cons t' rest ih =>
    intro c h i t hit
    have ht' : t' < t0 + rlWindowMs := h t' (List.mem_cons_self _ _)
    have hstep : rlHandle false k t' [(k, (t0, c))]
        = (if c + 1 ≤ rlMax then RLOutcome.allowed
           else RLOutcome.rejected (rl429 (t' + rlWindowMs)),
           [(k, (t0, c + 1))]) := by
      simp only [rlHandle, Bool.false_eq_true, if_false, List.lookup, beq_self_eq_true,
        if_pos ht', rlSet, if_pos rfl]
      split <;> rfl
    have hrun : rlRun false k [(k, (t0, c))] (t' :: rest)
        = (if c + 1 ≤ rlMax then RLOutcome.allowed
           else RLOutcome.rejected (rl429 (t' + rlWindowMs)))
          :: rlRun false k [(k, (t0, c + 1))] rest := by
      show (rlHandle false k t' [(k, (t0, c))]).1
          :: rlRun false k (rlHandle false k t' [(k, (t0, c))]).2 rest = _
      rw [hstep]
    rw [hrun]
    cases i with
    | zero =>
      rw [List.getElem?_cons_zero] at hit ⊢
      cases hit
      rfl
    | succ j =>
      rw [List.getElem?_cons_succ] at hit ⊢
      have := ih (c + 1) (fun x hx => h x (List.mem_cons_of_mem _ hx)) j t hit
      rw [this]
      by_cases hc : c + (j + 1) + 1 ≤ rlMax
      · rw [if_pos hc, if_pos (by omega)]
      · rw [if_neg hc, if_neg (by omega)]

/-- C4 (spec-modelled limiter): for a non-admin key issuing requests inside
a single 60-second window, the first 20 requests are allowed and every
further request is rejected with a 429 carrying the reset timestamp
`t + 60000`; a request arriving at or after the window's end is allowed
again (and starts a fresh window); a caller with the admin flag is never
rejected and leaves the limiter state untouched. -/
theorem c4_rate_limiter (k : String) (t0 : Nat) (ts : List Nat)
    (hts : ∀ t ∈ ts, t < t0 + rlWindowMs) :
    (∀ (i t : Nat), (t0 :: ts)[i]? = some t →
        (rlRun false k [] (t0 :: ts))[i]?
          = some (if i < rlMax then RLOutcome.allowed
                  else RLOutcome.rejected (rl429 (t + rlWindowMs))))
    ∧ (∀ (ws c t : Nat), ws + rlWindowMs ≤ t →
        rlHandle false k t [(k, (ws, c))] = (RLOutcome.allowed, [(k, (t, 1))]))
    ∧ (∀ (rla : RLState) (t : Nat), rlHandle true k t rla = (RLOutcome.allowed, rla)) := by
  refine ⟨?_, ?_, ?_⟩
  · intro i t hit
    have hfirst : rlHandle false k t0 [] = (RLOutcome.allowed, [(k, (t0, 1))]) := by
      simp [rlHandle, List.lookup, rlSet]
    have hrun : rlRun false k [] (t0 :: ts)
        = RLOutcome.allowed :: rlRun false k [(k, (t0, 1))] ts := by
      show (rlHandle false k t0 []).1 :: rlRun false k (rlHandle false k t0 []).2 ts = _
      rw [hfirst]
    rw [hrun]
    cases i with
    | zero =>
      rw [List.getElem?_cons_zero] at hit ⊢
      rw [if_pos (by simp [rlMax])]
    | succ j =>
      rw [List.getElem?_cons_succ] at hit ⊢
      have := rlRun_window k t0 ts 1 hts j t hit
      rw [this]
      by_cases hc : j + 1 < rlMax
      · rw [if_pos hc, if_pos (by omega)]
      · rw [if_neg hc, if_neg (by omega)]
  · intro ws c t hroll
    have hlt : ¬t < ws + rlWindowMs := by omega
    simp [rlHandle, List.lookup, rlSet, hlt]
  · intro rla t
    simp [rlHandle]

/-- Witness for C4 at a concrete input: 25 requests in one window (the
23rd, an index-22 request, is rejected with the machine-readable reset
timestamp), a request after the window rolls over is allowed again, and an
admin request is never limited. -/
theorem c4_rate_limiter_witness :
    (rlRun false "u1" [] (0 :: List.replicate 24 59999))[22]?
        = some (RLOutcome.rejected (rl429 119999))
    ∧ (rlRun false "u1" [] (0 :: List.replicate 24 59999))[5]? = some RLOutcome.allowed
    ∧ rlHandle false "u1" 60000 [("u1", (0, 25))] = (RLOutcome.allowed, [("u1", (60000, 1))])
    ∧ rlHandle true "u1" 0 [("u1", (0, 999))] = (RLOutcome.allowed, [("u1", (0, 999))]) := by
  have hw : rlWindowMs = 60000 := rfl
  have h := c4_rate_limiter "u1" 0 (List.replicate 24 59999)
    (by intro t ht; have := List.eq_of_mem_replicate ht; omega)
  refine ⟨?_, ?_, h.2.1 0 25 60000 (by omega), h.2.2 [("u1", (0, 999))] 0⟩
  · have := h.1 22 59999 (by decide)
    simpa [rlMax, rlWindowMs] using this
  · have := h.1 5 59999 (by decide)
    simpa [rlMax, rlWindowMs] using this

end LotterySpec
